import Mathlib

/-!
Shallow embedding of the go-nebulas p2p networking core
(`components/net/p2p/net_service.go` and `components/net/p2p/broadcast.go`).

Bytes are modelled as `Nat` values below 256, byte strings as `List Nat`.
Go's `uint32` arithmetic is modelled on `Nat` with explicit bounds / `% 2^32`
where overflow matters.  Fallible Go operations (slice indexing, slicing with
a negative bound) are modelled with the `GoResult` option-like type whose
`panik` constructor stands for a Go runtime panic.
-/

namespace Nebulas

/-- A Go byte: a natural number intended to be below 256. -/
abbrev Byte := Nat

/-- Modelled from the spec: `byteutils.FromUint32` (util/byteutils, not under
src/) encodes a 32-bit value as 4 bytes, big-endian ("big/uniform-endian"
per the spec's frame layout). -/
def fromUint32 (v : Nat) : List Byte :=
  [v / 2 ^ 24 % 256, v / 2 ^ 16 % 256, v / 2 ^ 8 % 256, v % 256]

/-- Modelled from the spec: `byteutils.Uint32` (util/byteutils, not under
src/) decodes 4 big-endian bytes into a 32-bit value. -/
def uint32 (b : List Byte) : Nat :=
  b.foldl (fun acc x => acc * 256 + x) 0

/-- One bit step of CRC-32 (IEEE, reflected polynomial 0xEDB88320),
as in Go's `hash/crc32` `ChecksumIEEE`. -/
def crc32Bit (c : Nat) : Nat :=
  if c % 2 = 1 then (c / 2) ^^^ 0xEDB88320 else c / 2

/-- One byte step of CRC-32: xor the byte into the low bits, then 8 bit steps. -/
def crc32ByteStep (c : Nat) (b : Byte) : Nat :=
  crc32Bit (crc32Bit (crc32Bit (crc32Bit
    (crc32Bit (crc32Bit (crc32Bit (crc32Bit (c ^^^ b))))))))

/-- Go's `crc32.ChecksumIEEE` over a byte list. -/
def crc32 (data : List Byte) : Nat :=
  (data.foldl crc32ByteStep 0xFFFFFFFF) ^^^ 0xFFFFFFFF

/-- The protocol magic number `{0x4e, 0x45, 0x42, 0x31}` ("NEB1"). -/
def MagicNumber : List Byte := [0x4e, 0x45, 0x42, 0x31]

/-- Semantics of Go's `copy(dst[pos:], src)`: overwrite `dst` starting at
`pos` with `min src.length (dst.length - pos)` bytes of `src`. -/
def copyAt (dst : List Byte) (pos : Nat) (src : List Byte) : List Byte :=
  dst.take pos ++ src.take (dst.length - pos)
    ++ dst.drop (pos + min src.length (dst.length - pos))

/-- `buildHeader` from net_service.go: a 32-byte header assembled by
successive `copy`s into a zeroed buffer (magic at 0, chain id at 4,
version at 11, message name at 12, payload length at 24, payload
checksum at 28; bytes 8-10 are the reserved field). -/
def buildHeader (chainID : Nat) (msgName : List Byte) (version : Byte)
    (dataLength : Nat) (dataChecksum : Nat) : List Byte :=
  let h0 := List.replicate 32 0
  let h1 := copyAt h0 0 MagicNumber
  let h2 := copyAt h1 4 (fromUint32 chainID)
  let h3 := copyAt h2 11 [version]
  let h4 := copyAt h3 12 msgName
  let h5 := copyAt h4 24 (fromUint32 dataLength)
  copyAt h5 28 (fromUint32 dataChecksum)

/-- `NetService.buildData`: payload checksum, 32-byte header, header
checksum appended, then the payload.  `chainID` and `version` are the
node's configured values (`ns.node.chainID`, `ns.node.version`);
`uint32(len(data))` is `data.length % 2^32`. -/
def buildData (chainID : Nat) (version : Byte) (data : List Byte)
    (msgName : List Byte) : List Byte :=
  let dataChecksum := crc32 data
  let metaHeader := buildHeader chainID msgName version (data.length % 2 ^ 32) dataChecksum
  let headerChecksum := crc32 metaHeader
  (metaHeader ++ fromUint32 headerChecksum) ++ data

/-- Result of a Go computation that can panic at runtime. -/
inductive GoResult (α : Type) where
  | ok (a : α) : GoResult α
  | panik : GoResult α
deriving DecidableEq, Repr

/-- Index of the first occurrence of `c` in `b`, if any. -/
def indexByteAux (b : List Byte) (c : Byte) : Option Nat :=
  match b with
  | [] => none
  | x :: xs => if x = c then some 0 else (indexByteAux xs c).map (· + 1)

/-- Go's `bytes.IndexByte`: index of the first occurrence of `c`, or `-1`. -/
def indexByte (b : List Byte) (c : Byte) : Int :=
  match indexByteAux b c with
  | some i => (i : Int)
  | none => -1

/-- The stream handler's message-name extraction
(`index := bytes.IndexByte(msgName, 0); msgNameByte := msgName[0:index]`):
slicing with a negative upper bound is a Go runtime panic. -/
def extractMsgName (msgName : List Byte) : GoResult (List Byte) :=
  let index := indexByte msgName 0
  if index < 0 then .panik else .ok (msgName.take index.toNat)

/-- The header fields as sliced by the stream handler
(`dataHeader[:4]`, `dataHeader[4:8]`, `[]byte{dataHeader[11]}`,
`dataHeader[12:24]`, `dataHeader[24:28]`, `dataHeader[28:32]` on the
36-byte header read by `ReadUint32(s, 36)`). -/
structure ParsedHeader where
  magicNumber : List Byte
  chainID : List Byte
  version : List Byte
  msgName : List Byte
  dataLength : List Byte
  dataChecksum : List Byte
deriving DecidableEq, Repr

/-- Slice the 36-byte header exactly as `streamHandler` does. -/
def sliceHeader (dataHeader : List Byte) : ParsedHeader where
  magicNumber := dataHeader.take 4
  chainID := (dataHeader.drop 4).take 4
  version := (dataHeader.drop 11).take 1
  msgName := (dataHeader.drop 12).take 12
  dataLength := (dataHeader.drop 24).take 4
  dataChecksum := (dataHeader.drop 28).take 4

/-! ### Message-name byte strings (`HELLO`, `OK`, `BYE`, `SYNCROUTE`,
`NEWBLOCK`, `SYNCROUTEREPLY = "resyncroute"`) -/

/-- Bytes of `"hello"`. -/
def helloBytes : List Byte := [104, 101, 108, 108, 111]

/-- Bytes of `"ok"`. -/
def okBytes : List Byte := [111, 107]

/-- Bytes of `"bye"`. -/
def byeBytes : List Byte := [98, 121, 101]

/-- Bytes of `"syncroute"`. -/
def syncrouteBytes : List Byte := [115, 121, 110, 99, 114, 111, 117, 116, 101]

/-- Bytes of `"newblock"`. -/
def newblockBytes : List Byte := [110, 101, 119, 98, 108, 111, 99, 107]

/-- Bytes of `"resyncroute"` (the `SYNCROUTEREPLY` constant). -/
def resyncrouteBytes : List Byte := [114, 101, 115, 121, 110, 99, 114, 111, 117, 116, 101]

/-! ### Node state

The route table, peerstore and the per-address stream / connection-status
maps (`node.routeTable`, `node.peerstore`, `node.stream`, `node.conn`).
The route table and peerstore are external collaborators (libp2p kbucket
and peerstore); they are modelled at the interface boundary the spec
gives for them: the route table as the set of peer identities it holds
(`Update` inserts, `Remove` deletes, `Find` reports membership), the
peerstore as a map from peer identity to addresses with a TTL class. -/

/-- Connection status: `S_NC` (disconnected) and `S_OK` (connected)
constants of the p2p package (defined in node.go, not under src/;
the spec's enum {Disconnected, Connected}). -/
inductive ConnStatus where
  | sNC : ConnStatus
  | sOK : ConnStatus
deriving DecidableEq, Repr

/-- TTL class of a peerstore address entry: cleared (`ttl 0`), short-lived
(`TempAddrTTL`) or long-lived (`PermanentAddrTTL`). -/
inductive TTL where
  | temp : TTL
  | permanent : TTL
deriving DecidableEq, Repr

/-- Update an association list at a key (replace the first binding or append). -/
def alSet {α : Type} (l : List (String × α)) (k : String) (v : α) : List (String × α) :=
  match l with
  | [] => [(k, v)]
  | (k', v') :: rest => if k' = k then (k, v) :: rest else (k', v') :: alSet rest k v

/-- Look up an association list, with a default. -/
def alGet {α : Type} (l : List (String × α)) (k : String) (d : α) : α :=
  match l with
  | [] => d
  | (k', v') :: rest => if k' = k then v' else alGet rest k d

/-- The mutable node state touched by this core: the route table (set of
peer identities), the peerstore (peer identity to addresses with TTL),
`node.stream` (address to registered send-handle) and `node.conn`
(address to connection status). Peer identities and network addresses
are modelled as strings. -/
structure NodeState where
  routeTable : List String
  peerAddrs : List (String × List (String × TTL))
  streams : List (String × Bool)
  conn : List (String × ConnStatus)
deriving DecidableEq, Repr

/-- `routeTable.Update(pid)` (kbucket interface): insert the identity if absent. -/
def rtUpdate (rt : List String) (pid : String) : List String :=
  if pid ∈ rt then rt else rt ++ [pid]

/-- `peerstore.PeerInfo(pid).Addrs`: the known addresses of a peer. -/
def peerInfoAddrs (st : NodeState) (pid : String) : List String :=
  (alGet st.peerAddrs pid []).map Prod.fst

/-- `peerstore.AddAddr(pid, addr, ttl)`: record an address with a TTL class
(a permanent entry is not downgraded by a later temporary add). -/
def addAddr (st : NodeState) (pid : String) (addr : String) (ttl : TTL) : NodeState :=
  let entry := alGet st.peerAddrs pid []
  let newTTL :=
    match alGet entry addr TTL.temp, ttl with
    | TTL.permanent, _ => TTL.permanent
    | _, t => t
  { st with peerAddrs := alSet st.peerAddrs pid (alSet entry addr newTTL) }

/-- `peerstore.SetAddrs(pid, addrs, 0)`: clear the given addresses of a peer
(expiry zero deletes them). -/
def setAddrsZero (st : NodeState) (pid : String) (addrs : List String) : NodeState :=
  let entry := alGet st.peerAddrs pid []
  { st with peerAddrs := alSet st.peerAddrs pid (entry.filter (fun p => ¬ p.1 ∈ addrs)) }

/-- `Node.Bye(pid, addrs)` from net_service.go: clear the address-book
entry, remove the identity from the route table, and mark the first
address disconnected.  All call sites pass a non-empty singleton
address list (`[]ma.Multiaddr{addrs}`), so `addrs.headD ""` is the
`addrs[0]` of the source. -/
def byeApply (st : NodeState) (pid : String) (addrs : List String) : NodeState :=
  let st1 := setAddrsZero st pid addrs
  { st1 with
    routeTable := st1.routeTable.erase pid
    conn := alSet st1.conn (addrs.headD "") ConnStatus.sNC }

/-- External outcomes seen by one `Hello` call: whether
`node.host.NewStream` fails, and whether the `Write` of the HELLO frame
fails. -/
structure HelloEnv where
  streamErr : Bool
  writeOk : Bool

/-- The error cases of `NetService.Hello`. -/
inductive HelloErr where
  | streamErr : HelloErr
  | wrongAddrs : HelloErr
  | writeErr : HelloErr
deriving DecidableEq, Repr

/-- `NetService.Hello(pid)` from net_service.go.  Opens a stream
(`NewStream`); on stream error it clears the peer's address-book entry
and removes it from the route table and returns the error; with fewer
than one known address it returns an error (state untouched); on write
error it returns an error (state untouched).  Otherwise it writes the
HELLO frame, spawns `streamHandler` asynchronously (`go`-routine inside
`streamHandler`), and returns `nil` immediately — session registration,
if any, happens later in that concurrent handler. -/
def helloStep (env : HelloEnv) (st : NodeState) (pid : String) :
    NodeState × Except HelloErr Unit :=
  if env.streamErr then
    ({ setAddrsZero st pid (peerInfoAddrs st pid) with
        routeTable := (setAddrsZero st pid (peerInfoAddrs st pid)).routeTable.erase pid },
      .error .streamErr)
  else if (peerInfoAddrs st pid).length < 1 then (st, .error .wrongAddrs)
  else if ¬ env.writeOk then (st, .error .writeErr)
  else (st, .ok ())

/-- One peer-info entry decoded from a SYNCROUTEREPLY payload. -/
structure Candidate where
  id : String
  addrs : List String
deriving DecidableEq, Repr

/-- Body of the SYNCROUTEREPLY loop in `streamHandler` for one candidate:
skip it when it is already in the route table (`Find != ""`) or has no
addresses; otherwise add its first address with a temporary TTL, call
`Hello`, and on success add the address permanently and update the route
table. -/
def processCandidate (env : String → HelloEnv) (st : NodeState) (c : Candidate) : NodeState :=
  if c.id ∈ st.routeTable ∨ c.addrs = [] then st
  else
    match helloStep (env c.id) (addAddr st c.id (c.addrs.headD "") TTL.temp) c.id with
    | (st2, .error _) => st2
    | (st2, .ok _) =>
      { addAddr st2 c.id (c.addrs.headD "") TTL.permanent with
        routeTable :=
          rtUpdate (addAddr st2 c.id (c.addrs.headD "") TTL.permanent).routeTable c.id }

/-- The whole SYNCROUTEREPLY candidate loop. -/
def processReply (env : String → HelloEnv) (st : NodeState) (cs : List Candidate) : NodeState :=
  cs.foldl (processCandidate env) st

/-- Immutable node configuration (`node.chainID`, `node.version`,
`node.config.maxSyncNodes`, `node.id`). -/
structure Config where
  chainID : Nat
  version : Byte
  maxSyncNodes : Nat
  selfId : String

/-- `Node.verifyHeader` from net_service.go: magic number, then chain id,
then version, each compared against the node's configuration; the first
mismatch returns false. -/
def verifyHeader (cfg : Config) (magicNumber chainID version : List Byte) : Bool :=
  if ¬ (MagicNumber = magicNumber) then false
  else if cfg.chainID ≠ uint32 chainID then false
  else if ¬ ([cfg.version] = version) then false
  else true

/-- External outcomes and decoded data consumed by one iteration of the
`streamHandler` receive loop: the remote peer and address of the
connection, the result of the two `ReadUint32` calls (`none` is a read
error), the result of the `Write` calls, the protobuf / block decode
results for NEWBLOCK, the `json.Marshal` result for SYNCROUTE, the
decoded candidate list for SYNCROUTEREPLY, and the per-candidate `Hello`
outcomes. -/
structure HandlerInput where
  pid : String
  addrStr : String
  headerBytes : Option (List Byte)
  payloadBytes : Option (List Byte)
  writeOk : Bool
  unmarshalOk : Bool
  fromProtoOk : Bool
  marshalOk : Bool
  candidates : List Candidate
  helloEnv : String → HelloEnv

/-- Observable result of one loop iteration: the state afterwards, whether
the loop ended (`break HandleMsg` / `return`), whether the payload read
was attempted, the number of values sent on the shared `ns.quitCh`
channel, and whether a message was handed to the dispatcher. -/
structure StepOut where
  state : NodeState
  endLoop : Bool
  payloadRead : Bool
  quitSent : Nat
  dispatched : Bool
deriving DecidableEq, Repr

/-- Dispatch of one decoded message in `streamHandler` (the `switch
msgNameStr` statement), after the frame has passed validation. -/
def dispatchMsg (cfg : Config) (inp : HandlerInput) (st : NodeState)
    (name : List Byte) (data : List Byte) : StepOut :=
  if name = helloBytes then
    if ¬ inp.writeOk then ⟨st, true, true, 0, false⟩
    else
      ⟨{ st with
          streams := alSet st.streams inp.addrStr true
          conn := alSet st.conn inp.addrStr ConnStatus.sOK
          routeTable := rtUpdate st.routeTable inp.pid }, false, true, 0, false⟩
  else if name = okBytes then
    if data = okBytes then
      ⟨{ st with
          conn := alSet st.conn inp.addrStr ConnStatus.sOK
          streams := alSet st.streams inp.addrStr true
          routeTable := rtUpdate st.routeTable inp.pid }, false, true, 0, false⟩
    else ⟨st, true, true, 0, false⟩
  else if name = byeBytes then ⟨st, false, true, 0, false⟩
  else if name = newblockBytes then
    ⟨st, false, true,
      (if inp.unmarshalOk then 0 else 1) + (if inp.fromProtoOk then 0 else 1), true⟩
  else if name = syncrouteBytes then
    if ¬ inp.marshalOk then ⟨st, true, true, 0, false⟩
    else if ¬ (alGet st.streams inp.addrStr false) then ⟨st, true, true, 0, false⟩
    else if ¬ inp.writeOk then ⟨st, true, true, 0, false⟩
    else ⟨{ st with routeTable := rtUpdate st.routeTable inp.pid }, false, true, 0, false⟩
  else if name = resyncrouteBytes then
    ⟨processReply inp.helloEnv st inp.candidates, false, true, 0, false⟩
  else ⟨st, false, true, 0, false⟩

/-- One iteration of the `streamHandler` receive loop (the body of the
`default:` branch of its `select`): read the 36-byte header (read error:
`Bye` and break), slice it, extract the message name (panic when the
name field has no zero byte), verify the header (mismatch: `Bye` and
break, payload never read), read the payload (read error: `Bye` and
break), check the payload CRC-32 (mismatch: break with no cleanup), then
dispatch on the message name. -/
def handleStep (cfg : Config) (inp : HandlerInput) (st : NodeState) : GoResult StepOut :=
  match inp.headerBytes with
  | none => .ok ⟨byeApply st inp.pid [inp.addrStr], true, false, 0, false⟩
  | some dataHeader =>
    match extractMsgName (sliceHeader dataHeader).msgName with
    | .panik => .panik
    | .ok msgNameBytes =>
      if ¬ verifyHeader cfg (sliceHeader dataHeader).magicNumber
          (sliceHeader dataHeader).chainID (sliceHeader dataHeader).version then
        .ok ⟨byeApply st inp.pid [inp.addrStr], true, false, 0, false⟩
      else
        match inp.payloadBytes with
        | none => .ok ⟨byeApply st inp.pid [inp.addrStr], true, true, 0, false⟩
        | some data =>
          if crc32 data ≠ uint32 (sliceHeader dataHeader).dataChecksum then
            .ok ⟨st, true, true, 0, false⟩
          else
            .ok (dispatchMsg cfg inp st msgNameBytes data)

/-- Result of `NetService.SendMsg` / `NetService.SyncRoutes`. -/
inductive SendResult where
  | sent : SendResult
  | guardReturn : SendResult
  | noSession : SendResult
  | writeErr : SendResult
  | panik : SendResult
deriving DecidableEq, Repr

/-- `NetService.SendMsg` from net_service.go: the guard is the source's
`len(addrs) < 0` (an `int` comparison, modelled on `Int`); past it the
code evaluates `addrs[0]`, which panics on an empty slice; then the
stream lookup and the write. -/
def sendMsg (st : NodeState) (addrs : List String) (writeOk : Bool) : SendResult :=
  if (addrs.length : Int) < 0 then .guardReturn
  else
    match addrs[0]? with
    | none => .panik
    | some a0 =>
      if ¬ (alGet st.streams a0 false) then .noSession
      else if ¬ writeOk then .writeErr
      else .sent

/-- `NetService.SyncRoutes` from net_service.go: identical guard
(`len(addrs) < 0`), `addrs[0]` indexing, stream lookup and write. -/
def syncRoutes (st : NodeState) (addrs : List String) (writeOk : Bool) : SendResult :=
  if (addrs.length : Int) < 0 then .guardReturn
  else
    match addrs[0]? with
    | none => .panik
    | some a0 =>
      if ¬ (alGet st.streams a0 false) then .noSession
      else if ¬ writeOk then .writeErr
      else .sent

/-- `NetService.Broadcast` from broadcast.go: serialize the block
(`proto.Marshal`; on error, return with no sends), list the route table,
and for every identity other than `node.id` spawn one `SendMsg` with
message name "newblock".  The returned list is the sequence of peer
identities to which a NEWBLOCK send is submitted. -/
def broadcastSends (cfg : Config) (marshalOk : Bool) (allNode : List String) : List String :=
  if ¬ marshalOk then []
  else allNode.filter (fun nodeID => ¬ (cfg.selfId = nodeID))

/-- An operation of this core that can touch the route table: one
`streamHandler` loop iteration, one `Hello` call, one `Bye` call. -/
inductive CoreOp where
  | handle (inp : HandlerInput) : CoreOp
  | hello (env : HelloEnv) (pid : String) : CoreOp
  | bye (pid : String) (addr : String) : CoreOp

/-- State transition of one core operation (a panicking handler iteration
crashes the process; the state is returned unchanged — no table mutation
happens in that case either). -/
def runOp (cfg : Config) (st : NodeState) (op : CoreOp) : NodeState :=
  match op with
  | .handle inp =>
    match handleStep cfg inp st with
    | .ok out => out.state
    | .panik => st
  | .hello env pid => (helloStep env st pid).1
  | .bye pid addr => byeApply st pid [addr]

/-- State after a sequence of core operations. -/
def runOps (cfg : Config) (ops : List CoreOp) (st : NodeState) : NodeState :=
  ops.foldl (runOp cfg) st

/-- A core operation is self-free when every identity it can pass to
`routeTable.Update` — the connection's remote peer for a handler
iteration, and the decoded reply candidates — differs from the local
identity.  (`Hello` and `Bye` only ever remove from the table.) -/
def opSelfFree (selfId : String) : CoreOp → Prop
  | .handle inp => inp.pid ≠ selfId ∧ ∀ c ∈ inp.candidates, c.id ≠ selfId
  | .hello _ _ => True
  | .bye _ _ => True

/-! ### Two-connection system for the shared quit channel

`ns.quitCh` is one unbuffered channel shared by every connection's
receive loop; each loop's `select` consumes a pending value and breaks.
`quitSignals` counts senders blocked on the channel. -/

/-- The p2p service with two live connections: the count of pending quit
signals and whether each connection's receive loop is still running,
plus the shared node state. -/
structure SysState where
  quitSignals : Nat
  conn1Active : Bool
  conn2Active : Bool
  node : NodeState
deriving DecidableEq, Repr

/-- One iteration of connection 1's receive loop: its `select` consumes a
pending quit signal and breaks out of the loop; otherwise the `default`
branch runs one `handleStep`. -/
def sysStepConn1 (cfg : Config) (inp : HandlerInput) (s : SysState) : SysState :=
  if ¬ s.conn1Active then s
  else if s.quitSignals > 0 then
    { s with quitSignals := s.quitSignals - 1, conn1Active := false }
  else
    match handleStep cfg inp s.node with
    | .panik => s
    | .ok out =>
      { s with
        node := out.state
        quitSignals := s.quitSignals + out.quitSent
        conn1Active := ¬ out.endLoop }

/-- One iteration of connection 2's receive loop, same semantics. -/
def sysStepConn2 (cfg : Config) (inp : HandlerInput) (s : SysState) : SysState :=
  if ¬ s.conn2Active then s
  else if s.quitSignals > 0 then
    { s with quitSignals := s.quitSignals - 1, conn2Active := false }
  else
    match handleStep cfg inp s.node with
    | .panik => s
    | .ok out =>
      { s with
        node := out.state
        quitSignals := s.quitSignals + out.quitSent
        conn2Active := ¬ out.endLoop }

end Nebulas

namespace Nebulas

/-! ### Frame codec normalization lemmas -/

theorem length_fromUint32 (x : Nat) : (fromUint32 x).length = 4 := rfl

theorem uint32_fromUint32 (x : Nat) (hx : x < 2 ^ 32) : uint32 (fromUint32 x) = x := by
  simp only [fromUint32, uint32, List.foldl]
  omega

/-- Copying the message name into bytes 12.. of the partially built header. -/
theorem copyAt_name (K n : List Byte) (hK : K.length = 12) :
    copyAt (K ++ List.replicate 20 0) 12 n
      = K ++ (n.take 20 ++ List.replicate (20 - min n.length 20) 0) := by
  unfold copyAt
  rw [List.length_append, hK, List.length_replicate]
  rw [List.take_append_eq_append_take, List.drop_append_eq_append_drop]
  rw [List.take_of_length_le (le_of_eq hK), List.drop_eq_nil_of_le (by omega), hK]
  simp only [List.nil_append, Nat.sub_self, List.take_zero, List.append_nil,
    List.drop_replicate]
  have h2 : 12 + n.length ⊓ 20 - 12 = n.length ⊓ 20 := by omega
  rw [h2, List.append_assoc]

/-- Copying the payload length into bytes 24..27. -/
theorem copyAt_dataLength (K B : List Byte) (dl : Nat)
    (hK : K.length = 12) (hB : B.length = 20) :
    copyAt (K ++ B) 24 (fromUint32 dl)
      = K ++ B.take 12 ++ fromUint32 dl ++ B.drop 16 := by
  unfold copyAt
  rw [List.length_append, hK, hB]
  have h1 : (K ++ B).take 24 = K ++ B.take 12 := by
    rw [List.take_append_eq_append_take, List.take_of_length_le (by omega), hK]
  have h2 : (fromUint32 dl).take (32 - 24) = fromUint32 dl := rfl
  have h3 : (K ++ B).drop (24 + min (fromUint32 dl).length (32 - 24)) = B.drop 16 := by
    rw [List.drop_append_eq_append_drop, List.drop_eq_nil_of_le (by omega), hK]
    rfl
  rw [h1, h2, h3, List.append_assoc, List.append_assoc]

/-- Copying the payload checksum into bytes 28..31. -/
theorem copyAt_dataChecksum (K B : List Byte) (dl dc : Nat)
    (hK : K.length = 12) (hB : B.length = 20) :
    copyAt (K ++ B.take 12 ++ fromUint32 dl ++ B.drop 16) 28 (fromUint32 dc)
      = K ++ B.take 12 ++ fromUint32 dl ++ fromUint32 dc := by
  have hB12 : (B.take 12).length = 12 := by rw [List.length_take]; omega
  have hB16 : (B.drop 16).length = 4 := by rw [List.length_drop]; omega
  have hA : (K ++ B.take 12 ++ fromUint32 dl).length = 28 := by
    simp only [List.length_append, hK, hB12, length_fromUint32]
  unfold copyAt
  have hlen : (K ++ B.take 12 ++ fromUint32 dl ++ B.drop 16).length = 32 := by
    simp only [List.length_append, hK, hB12, hB16, length_fromUint32]
  rw [hlen]
  have h1 : (K ++ B.take 12 ++ fromUint32 dl ++ B.drop 16).take 28
      = K ++ B.take 12 ++ fromUint32 dl := by
    rw [List.take_append_eq_append_take, List.take_of_length_le (le_of_eq hA), hA]
    simp
  have h2 : (fromUint32 dc).take (32 - 28) = fromUint32 dc := rfl
  have h3 : (K ++ B.take 12 ++ fromUint32 dl ++ B.drop 16).drop
      (28 + min (fromUint32 dc).length (32 - 28)) = [] := by
    apply List.drop_eq_nil_of_le
    rw [hlen, length_fromUint32]
    omega
  rw [h1, h2, h3, List.append_nil]

/-- The message-name field of the built header: the first 12 bytes of the
name, padded with zeros to 12 bytes. -/
theorem nameField_take (n : List Byte) :
    (n.take 20 ++ List.replicate (20 - min n.length 20) 0).take 12
      = n.take 12 ++ List.replicate (12 - n.length) 0 := by
  rw [List.take_append_eq_append_take, List.take_take, List.take_replicate]
  have h1 : min 12 20 = 12 := rfl
  rw [h1]
  congr 1
  have h2 : (n.take 20).length = min 20 n.length := List.length_take 20 n
  rw [h2]
  congr 1
  omega

/-- Normal form of `buildHeader`: magic, chain id, reserved bytes, version,
12-byte name field (name truncated to 12 bytes, zero-padded), payload
length, payload checksum. -/
theorem buildHeader_eq (c : Nat) (n : List Byte) (v : Byte) (dl dc : Nat) :
    buildHeader c n v dl dc
      = MagicNumber ++ fromUint32 c ++ [0, 0, 0, v]
          ++ (n.take 12 ++ List.replicate (12 - n.length) 0)
          ++ fromUint32 dl ++ fromUint32 dc := by
  have hK : (MagicNumber ++ fromUint32 c ++ [0, 0, 0, v]).length = 12 := rfl
  have hstep3 :
      copyAt (copyAt (copyAt (List.replicate 32 0) 0 MagicNumber) 4 (fromUint32 c)) 11 [v]
        = (MagicNumber ++ fromUint32 c ++ [0, 0, 0, v]) ++ List.replicate 20 0 := rfl
  have hB : (n.take 20 ++ List.replicate (20 - min n.length 20) 0).length = 20 := by
    rw [List.length_append, List.length_take, List.length_replicate]
    omega
  show copyAt (copyAt (copyAt _ 12 n) 24 (fromUint32 dl)) 28 (fromUint32 dc) = _
  rw [hstep3, copyAt_name _ _ hK, copyAt_dataLength _ _ _ hK hB,
    copyAt_dataChecksum _ _ _ _ hK hB, nameField_take]

/-- The name field is always exactly 12 bytes. -/
theorem nameField_length (n : List Byte) :
    (n.take 12 ++ List.replicate (12 - n.length) 0).length = 12 := by
  rw [List.length_append, List.length_take, List.length_replicate]
  omega

theorem buildHeader_length (c : Nat) (n : List Byte) (v : Byte) (dl dc : Nat) :
    (buildHeader c n v dl dc).length = 32 := by
  rw [buildHeader_eq]
  simp only [List.length_append, length_fromUint32, List.length_take,
    List.length_replicate, MagicNumber, List.length_cons, List.length_nil]
  omega

/-- Slicing the built header (with the appended header checksum) recovers
each field. -/
theorem sliceHeader_build (c : Nat) (n : List Byte) (v : Byte) (dl dc hc : Nat) :
    sliceHeader (buildHeader c n v dl dc ++ fromUint32 hc)
      = ⟨MagicNumber, fromUint32 c, [v],
         n.take 12 ++ List.replicate (12 - n.length) 0,
         fromUint32 dl, fromUint32 dc⟩ := by
  rw [buildHeader_eq]
  have hnf := nameField_length n
  simp only [sliceHeader, ParsedHeader.mk.injEq]
  refine ⟨rfl, rfl, rfl, ?_, ?_, ?_⟩
  · show (List.take 12
      ((((n.take 12 ++ List.replicate (12 - n.length) 0) ++ fromUint32 dl)
        ++ fromUint32 dc) ++ fromUint32 hc)) = _
    rw [List.append_assoc, List.append_assoc, List.take_left' hnf]
  · show (List.take 4 (List.drop 12
      ((((n.take 12 ++ List.replicate (12 - n.length) 0) ++ fromUint32 dl)
        ++ fromUint32 dc) ++ fromUint32 hc))) = _
    rw [List.append_assoc, List.append_assoc, List.drop_left' hnf,
      List.take_left' (length_fromUint32 dl)]
  · show (List.take 4 (List.drop 16
      ((((n.take 12 ++ List.replicate (12 - n.length) 0) ++ fromUint32 dl)
        ++ fromUint32 dc) ++ fromUint32 hc))) = _
    have h16 : ((n.take 12 ++ List.replicate (12 - n.length) 0) ++ fromUint32 dl).length
        = 16 := by
      rw [List.length_append, hnf, length_fromUint32]
    rw [List.append_assoc, List.drop_left' h16, List.take_left' (length_fromUint32 dc)]

/-- The frame built by `buildData` is the 32-byte header, the header
checksum, then the payload. -/
theorem buildData_parts (c : Nat) (v : Byte) (data n : List Byte) :
    (buildData c v data n).take 36
        = buildHeader c n v (data.length % 2 ^ 32) (crc32 data)
          ++ fromUint32 (crc32 (buildHeader c n v (data.length % 2 ^ 32) (crc32 data)))
      ∧ (buildData c v data n).drop 36 = data := by
  have h36 : (buildHeader c n v (data.length % 2 ^ 32) (crc32 data)
      ++ fromUint32 (crc32 (buildHeader c n v (data.length % 2 ^ 32) (crc32 data)))).length
      = 36 := by
    rw [List.length_append, buildHeader_length, length_fromUint32]
  constructor
  · exact List.take_left' h36
  · exact List.drop_left' h36

/-- A CRC-32 over well-formed bytes fits in 32 bits. -/
theorem crc32_lt (data : List Byte) (h : ∀ b ∈ data, b < 256) : crc32 data < 2 ^ 32 := by
  have hbit : ∀ x : Nat, x < 2 ^ 32 → crc32Bit x < 2 ^ 32 := by
    intro x hx
    unfold crc32Bit
    split
    · exact Nat.xor_lt_two_pow (by omega) (by norm_num)
    · omega
  have hbyte : ∀ x b : Nat, x < 2 ^ 32 → b < 256 → crc32ByteStep x b < 2 ^ 32 := by
    intro x b hx hb
    unfold crc32ByteStep
    have h0 : x ^^^ b < 2 ^ 32 := Nat.xor_lt_two_pow hx (by omega)
    exact hbit _ (hbit _ (hbit _ (hbit _ (hbit _ (hbit _ (hbit _ (hbit _ h0)))))))
  have hfold : ∀ (l : List Byte) (acc : Nat), (∀ b ∈ l, b < 256) → acc < 2 ^ 32 →
      l.foldl crc32ByteStep acc < 2 ^ 32 := by
    intro l
    induction l with
    | nil => intro acc _ hacc; exact hacc
    | cons a t ih =>
      intro acc hl hacc
      exact ih _ (fun b hb => hl b (List.mem_cons_of_mem a hb))
        (hbyte acc a hacc (hl a (List.mem_cons_self a t)))
  unfold crc32
  exact Nat.xor_lt_two_pow (hfold data 0xFFFFFFFF h (by norm_num)) (by norm_num)

/-- First index of a zero byte in `n ++ 0 :: t` when `n` has no zero byte. -/
theorem indexByteAux_append_zero (n : List Byte) (t : List Byte)
    (h : ∀ b ∈ n, b ≠ 0) :
    indexByteAux (n ++ 0 :: t) 0 = some n.length := by
  induction n with
  | nil => rfl
  | cons a m ih =>
    have ha : a ≠ 0 := h a (List.mem_cons_self a m)
    have hm : ∀ b ∈ m, b ≠ 0 := fun b hb => h b (List.mem_cons_of_mem a hb)
    simp only [List.cons_append, indexByteAux, if_neg ha, List.append_eq, ih hm,
      Option.map_some', List.length_cons]

/-- Name extraction on a zero-padded name field recovers the name. -/
theorem extractMsgName_padded (n : List Byte) (hn : n.length ≤ 11)
    (hz : ∀ b ∈ n, b ≠ 0) :
    extractMsgName (n.take 12 ++ List.replicate (12 - n.length) 0) = .ok n := by
  have htake : n.take 12 = n := List.take_of_length_le (by omega)
  have hrep : List.replicate (12 - n.length) 0 = 0 :: List.replicate (11 - n.length) 0 := by
    have : 12 - n.length = (11 - n.length) + 1 := by omega
    rw [this, List.replicate_succ]
  rw [htake, hrep]
  unfold extractMsgName indexByte
  rw [indexByteAux_append_zero n _ hz]
  simp only [Int.toNat_ofNat]
  rw [if_neg (by omega)]
  congr 1
  exact List.take_left n _

/-! ### Helper lemmas for the handler theorems -/

/-- A byte string without the searched byte has no index. -/
theorem indexByteAux_eq_none (f : List Byte) (h : ∀ b ∈ f, b ≠ 0) :
    indexByteAux f 0 = none := by
  induction f with
  | nil => rfl
  | cons a m ih =>
    have ha : a ≠ 0 := h a (List.mem_cons_self a m)
    have hm : ∀ b ∈ m, b ≠ 0 := fun b hb => h b (List.mem_cons_of_mem a hb)
    simp only [indexByteAux, if_neg ha, ih hm, Option.map_none']

/-- Name extraction panics on a field with no zero byte. -/
theorem extractMsgName_panik (f : List Byte) (h : ∀ b ∈ f, b ≠ 0) :
    indexByte f 0 = -1 ∧ extractMsgName f = GoResult.panik := by
  have hi : indexByte f 0 = -1 := by
    unfold indexByte
    rw [indexByteAux_eq_none f h]
  refine ⟨hi, ?_⟩
  unfold extractMsgName
  rw [hi]
  norm_num

/-- Updating an association list then reading the same key gives the value. -/
theorem alGet_alSet {α : Type} (l : List (String × α)) (k : String) (v d : α) :
    alGet (alSet l k v) k d = v := by
  induction l with
  | nil => simp [alSet, alGet]
  | cons p rest ih =>
    by_cases h : p.1 = k
    · simp [alSet, alGet, h]
    · simp only [alSet, alGet, if_neg h]
      exact ih

/-- An updated association list is never empty. -/
theorem alSet_ne_nil {α : Type} (l : List (String × α)) (k : String) (v : α) :
    alSet l k v ≠ [] := by
  cases l with
  | nil => simp [alSet]
  | cons p rest =>
    simp only [alSet]
    split <;> simp

/-- After `addAddr`, the peer has at least one known address. -/
theorem peerInfoAddrs_addAddr_ne_nil (st : NodeState) (pid a : String) (ttl : TTL) :
    peerInfoAddrs (addAddr st pid a ttl) pid ≠ [] := by
  unfold peerInfoAddrs addAddr
  simp only [alGet_alSet]
  intro hcon
  exact alSet_ne_nil _ a _ (List.map_eq_nil.mp hcon)

/-- Case analysis of `Hello`: stream-open failure clears the address-book
entry and removes the peer from the route table. -/
theorem helloStep_streamErr (env : HelloEnv) (st : NodeState) (pid : String)
    (h : env.streamErr = true) :
    helloStep env st pid
      = ({ setAddrsZero st pid (peerInfoAddrs st pid) with
            routeTable := (setAddrsZero st pid (peerInfoAddrs st pid)).routeTable.erase pid },
         Except.error HelloErr.streamErr) := by
  unfold helloStep
  rw [if_pos h]

/-- Case analysis of `Hello`: no known address is an error with the state
untouched. -/
theorem helloStep_noAddrs (env : HelloEnv) (st : NodeState) (pid : String)
    (h1 : env.streamErr = false) (h2 : peerInfoAddrs st pid = []) :
    helloStep env st pid = (st, Except.error HelloErr.wrongAddrs) := by
  unfold helloStep
  rw [if_neg (by rw [h1]; exact Bool.false_ne_true), if_pos (by rw [h2]; decide)]

/-- Case analysis of `Hello`: write failure is an error with the state
untouched — the address-book entry is not cleared. -/
theorem helloStep_writeErr (env : HelloEnv) (st : NodeState) (pid : String)
    (h1 : env.streamErr = false) (h2 : peerInfoAddrs st pid ≠ [])
    (h3 : env.writeOk = false) :
    helloStep env st pid = (st, Except.error HelloErr.writeErr) := by
  unfold helloStep
  have hlen : ¬ (peerInfoAddrs st pid).length < 1 := by
    have := List.length_pos.mpr h2
    omega
  rw [if_neg (by rw [h1]; exact Bool.false_ne_true), if_neg hlen,
    if_pos (by rw [h3]; exact Bool.false_ne_true)]

/-- Case analysis of `Hello`: with a stream, an address and a successful
write it returns success immediately, with the state untouched — no OK
reply is awaited and no session is registered. -/
theorem helloStep_ok (env : HelloEnv) (st : NodeState) (pid : String)
    (h1 : env.streamErr = false) (h2 : peerInfoAddrs st pid ≠ [])
    (h3 : env.writeOk = true) :
    helloStep env st pid = (st, Except.ok ()) := by
  unfold helloStep
  have hlen : ¬ (peerInfoAddrs st pid).length < 1 := by
    have := List.length_pos.mpr h2
    omega
  rw [if_neg (by rw [h1]; exact Bool.false_ne_true), if_neg hlen,
    if_neg (by rw [h3]; simp)]

/-- A candidate already routed or without addresses is skipped outright. -/
theorem processCandidate_skip (env : String → HelloEnv) (st : NodeState) (c : Candidate)
    (h : c.id ∈ st.routeTable ∨ c.addrs = []) :
    processCandidate env st c = st := by
  unfold processCandidate
  rw [if_pos h]

/-- A fresh candidate whose verification `Hello` fails on stream open ends
with its address-book entry cleared (not kept as a temporary entry) and
is not added to the route table. -/
theorem processCandidate_streamErr (env : String → HelloEnv) (st : NodeState)
    (c : Candidate) (h : ¬ (c.id ∈ st.routeTable ∨ c.addrs = []))
    (hs : (env c.id).streamErr = true) :
    processCandidate env st c
      = ({ setAddrsZero (addAddr st c.id (c.addrs.headD "") TTL.temp) c.id
            (peerInfoAddrs (addAddr st c.id (c.addrs.headD "") TTL.temp) c.id) with
          routeTable :=
            (setAddrsZero (addAddr st c.id (c.addrs.headD "") TTL.temp) c.id
              (peerInfoAddrs (addAddr st c.id (c.addrs.headD "") TTL.temp) c.id)).routeTable.erase
              c.id }) := by
  unfold processCandidate
  rw [if_neg h, helloStep_streamErr _ _ _ hs]

/-- A fresh candidate whose verification `Hello` fails on the HELLO write
keeps only its short-lived temporary address entry and is not added to
the route table. -/
theorem processCandidate_writeErr (env : String → HelloEnv) (st : NodeState)
    (c : Candidate) (h : ¬ (c.id ∈ st.routeTable ∨ c.addrs = []))
    (hs : (env c.id).streamErr = false) (hw : (env c.id).writeOk = false) :
    processCandidate env st c = addAddr st c.id (c.addrs.headD "") TTL.temp := by
  unfold processCandidate
  rw [if_neg h, helloStep_writeErr _ _ _ hs
    (peerInfoAddrs_addAddr_ne_nil st c.id (c.addrs.headD "") TTL.temp) hw]

/-- A fresh candidate whose verification `Hello` succeeds (stream opened
and HELLO written; no OK reply involved) is promoted to a permanent
address entry and inserted into the route table. -/
theorem processCandidate_ok (env : String → HelloEnv) (st : NodeState)
    (c : Candidate) (h : ¬ (c.id ∈ st.routeTable ∨ c.addrs = []))
    (hs : (env c.id).streamErr = false) (hw : (env c.id).writeOk = true) :
    processCandidate env st c
      = ({ addAddr (addAddr st c.id (c.addrs.headD "") TTL.temp) c.id
            (c.addrs.headD "") TTL.permanent with
          routeTable :=
            rtUpdate (addAddr (addAddr st c.id (c.addrs.headD "") TTL.temp) c.id
              (c.addrs.headD "") TTL.permanent).routeTable c.id }) := by
  unfold processCandidate
  rw [if_neg h, helloStep_ok _ _ _ hs
    (peerInfoAddrs_addAddr_ne_nil st c.id (c.addrs.headD "") TTL.temp) hw]

/-! ### Route-table preservation lemmas (no self-insertion) -/

/-- `Update` with a non-self identity cannot introduce self. -/
theorem rtUpdate_not_mem (x pid : String) (rt : List String)
    (hx : x ∉ rt) (hne : pid ≠ x) : x ∉ rtUpdate rt pid := by
  unfold rtUpdate
  split
  · exact hx
  · intro hmem
    rcases List.mem_append.mp hmem with hleft | hlast
    · exact hx hleft
    · exact hne (List.mem_singleton.mp hlast).symm

/-- `Remove` cannot introduce self. -/
theorem erase_not_mem (x pid : String) (rt : List String) (hx : x ∉ rt) :
    x ∉ rt.erase pid := fun h => hx (List.mem_of_mem_erase h)

/-- `Hello` never inserts into the route table. -/
theorem helloStep_rt_preserve (env : HelloEnv) (st : NodeState) (pid x : String)
    (hx : x ∉ st.routeTable) : x ∉ (helloStep env st pid).1.routeTable := by
  unfold helloStep
  split
  · exact erase_not_mem x pid _ hx
  · split
    · exact hx
    · split
      · exact hx
      · exact hx

/-- `Bye` never inserts into the route table. -/
theorem byeApply_rt_preserve (st : NodeState) (pid x : String) (addrs : List String)
    (hx : x ∉ st.routeTable) : x ∉ (byeApply st pid addrs).routeTable :=
  erase_not_mem x pid _ hx

/-- Candidate processing inserts only the candidate's identity. -/
theorem processCandidate_rt_preserve (env : String → HelloEnv) (st : NodeState)
    (c : Candidate) (x : String) (hx : x ∉ st.routeTable) (hne : c.id ≠ x) :
    x ∉ (processCandidate env st c).routeTable := by
  unfold processCandidate
  split
  · exact hx
  · have hst1 : x ∉ (addAddr st c.id (c.addrs.headD "") TTL.temp).routeTable := hx
    rcases hres : helloStep (env c.id) (addAddr st c.id (c.addrs.headD "") TTL.temp) c.id
      with ⟨st2, r⟩
    have hst2 : x ∉ st2.routeTable := by
      have := helloStep_rt_preserve (env c.id)
        (addAddr st c.id (c.addrs.headD "") TTL.temp) c.id x hst1
      rw [hres] at this
      exact this
    cases r with
    | error e => simp only [hres]; exact hst2
    | ok u => simp only [hres]; exact rtUpdate_not_mem x c.id _ hst2 hne

/-- Reply processing inserts only candidate identities. -/
theorem processReply_rt_preserve (env : String → HelloEnv) (st : NodeState)
    (cs : List Candidate) (x : String) (hx : x ∉ st.routeTable)
    (hcs : ∀ c ∈ cs, c.id ≠ x) : x ∉ (processReply env st cs).routeTable := by
  induction cs generalizing st with
  | nil => exact hx
  | cons c t ih =>
    have h1 : x ∉ (processCandidate env st c).routeTable :=
      processCandidate_rt_preserve env st c x hx (hcs c (List.mem_cons_self c t))
    exact ih _ h1 (fun d hd => hcs d (List.mem_cons_of_mem c hd))

/-- Message dispatch inserts only the connection's remote peer or a reply
candidate. -/
theorem dispatchMsg_rt_preserve (cfg : Config) (inp : HandlerInput) (st : NodeState)
    (name data : List Byte) (x : String) (hx : x ∉ st.routeTable)
    (hpid : inp.pid ≠ x) (hcands : ∀ c ∈ inp.candidates, c.id ≠ x) :
    x ∉ (dispatchMsg cfg inp st name data).state.routeTable := by
  unfold dispatchMsg
  split_ifs <;>
    first
      | exact hx
      | exact rtUpdate_not_mem x inp.pid _ hx hpid
      | exact processReply_rt_preserve inp.helloEnv st inp.candidates x hx hcands

/-- One handler iteration inserts only the remote peer or a candidate. -/
theorem handleStep_rt_preserve (cfg : Config) (inp : HandlerInput) (st : NodeState)
    (out : StepOut) (x : String) (hx : x ∉ st.routeTable)
    (hpid : inp.pid ≠ x) (hcands : ∀ c ∈ inp.candidates, c.id ≠ x)
    (hout : handleStep cfg inp st = GoResult.ok out) : x ∉ out.state.routeTable := by
  unfold handleStep at hout
  split at hout
  · cases hout
    exact byeApply_rt_preserve st inp.pid x [inp.addrStr] hx
  · split at hout
    · simp at hout
    · split at hout
      · cases hout
        exact byeApply_rt_preserve st inp.pid x [inp.addrStr] hx
      · split at hout
        · cases hout
          exact byeApply_rt_preserve st inp.pid x [inp.addrStr] hx
        · split at hout
          · cases hout
            exact hx
          · cases hout
            exact dispatchMsg_rt_preserve cfg inp st _ _ x hx hpid hcands

/-- Any single core operation that is self-free preserves absence of self. -/
theorem runOp_rt_preserve (cfg : Config) (st : NodeState) (op : CoreOp)
    (hx : cfg.selfId ∉ st.routeTable) (hop : opSelfFree cfg.selfId op) :
    cfg.selfId ∉ (runOp cfg st op).routeTable := by
  cases op with
  | handle inp =>
    obtain ⟨hpid, hcands⟩ := hop
    show cfg.selfId ∉ (match handleStep cfg inp st with
      | GoResult.ok out => out.state
      | GoResult.panik => st).routeTable
    rcases hres : handleStep cfg inp st with out | _
    · exact handleStep_rt_preserve cfg inp st out cfg.selfId hx hpid hcands hres
    · exact hx
  | hello env pid => exact helloStep_rt_preserve env st pid cfg.selfId hx
  | bye pid addr => exact byeApply_rt_preserve st pid cfg.selfId [addr] hx

/-! ### Claim theorems -/

/-- C2: for every chain id, protocol version, message name of at most 11
characters (a message name per the spec's data model: printable, hence
no zero byte), and payload byte sequence, parsing the frame produced by
`buildData` with the stream handler's header slicing and name extraction
recovers exactly the original chain id, version, message name and
payload bytes, and the payload CRC-32 check passes. -/
theorem claim_C2_frame_roundtrip (c : Nat) (v : Byte) (n data : List Byte)
    (hc : c < 2 ^ 32) (hn : n.length ≤ 11) (hz : ∀ b ∈ n, b ≠ 0)
    (hd : data.length < 2 ^ 32) (hdb : ∀ b ∈ data, b < 256) :
    uint32 (sliceHeader ((buildData c v data n).take 36)).chainID = c
    ∧ (sliceHeader ((buildData c v data n).take 36)).version = [v]
    ∧ extractMsgName (sliceHeader ((buildData c v data n).take 36)).msgName
        = GoResult.ok n
    ∧ ((buildData c v data n).drop 36).take
        (uint32 (sliceHeader ((buildData c v data n).take 36)).dataLength) = data
    ∧ crc32 (((buildData c v data n).drop 36).take
        (uint32 (sliceHeader ((buildData c v data n).take 36)).dataLength))
      = uint32 (sliceHeader ((buildData c v data n).take 36)).dataChecksum := by
  obtain ⟨h1, h2⟩ := buildData_parts c v data n
  rw [h1, h2, sliceHeader_build]
  have hmod : data.length % 2 ^ 32 = data.length := Nat.mod_eq_of_lt hd
  have hdl : uint32 (fromUint32 (data.length % 2 ^ 32)) = data.length := by
    rw [hmod]; exact uint32_fromUint32 _ hd
  have hcrc : uint32 (fromUint32 (crc32 data)) = crc32 data :=
    uint32_fromUint32 _ (crc32_lt data hdb)
  refine ⟨uint32_fromUint32 c hc, rfl, extractMsgName_padded n hn hz, ?_, ?_⟩
  · rw [hdl, List.take_length]
  · rw [hdl, List.take_length, hcrc]

/-- C9: the empty-address guard of `SendMsg` and `SyncRoutes` tests
`len(addrs) < 0`, which no address list satisfies; hence both functions,
called with an empty peerstore address list, reach `addrs[0]` and panic
instead of logging and returning. -/
theorem claim_C9_negative_length_guard :
    (∀ addrs : List String, ¬ ((addrs.length : Int) < 0))
    ∧ (∀ (st : NodeState) (w : Bool), sendMsg st [] w = SendResult.panik)
    ∧ (∀ (st : NodeState) (w : Bool), syncRoutes st [] w = SendResult.panik) := by
  refine ⟨fun addrs => ?_, fun st w => rfl, fun st w => rfl⟩
  simp

/-- C10: a 12-byte message-name field with no zero byte makes the stream
handler's `bytes.IndexByte` return -1 and the slice `msgName[0:index]`
panic; and `buildHeader` produces exactly such a field for every message
name of 12 or more (nonzero) characters, since it copies the name into
the field without a length check. -/
theorem claim_C10_no_terminator_panics (c dl dc hc : Nat) (v : Byte) (n : List Byte)
    (hlen : 12 ≤ n.length) (hz : ∀ b ∈ n, b ≠ 0) :
    (∀ f : List Byte, (∀ b ∈ f, b ≠ 0) →
        indexByte f 0 = -1 ∧ extractMsgName f = GoResult.panik)
    ∧ (sliceHeader (buildHeader c n v dl dc ++ fromUint32 hc)).msgName = n.take 12
    ∧ extractMsgName
        (sliceHeader (buildHeader c n v dl dc ++ fromUint32 hc)).msgName
        = GoResult.panik
    ∧ (∀ (cfg : Config) (inp : HandlerInput) (st : NodeState),
        inp.headerBytes = some (buildHeader c n v dl dc ++ fromUint32 hc) →
        handleStep cfg inp st = GoResult.panik) := by
  have hfield : (sliceHeader (buildHeader c n v dl dc ++ fromUint32 hc)).msgName
      = n.take 12 := by
    rw [sliceHeader_build]
    have h0 : 12 - n.length = 0 := by omega
    rw [h0, List.replicate_zero, List.append_nil]
  have hzn : ∀ b ∈ n.take 12, b ≠ 0 := fun b hb => hz b (List.take_subset 12 n hb)
  have hpanik : extractMsgName
      (sliceHeader (buildHeader c n v dl dc ++ fromUint32 hc)).msgName
      = GoResult.panik := by
    rw [hfield]
    exact (extractMsgName_panik _ hzn).2
  refine ⟨extractMsgName_panik, hfield, hpanik, ?_⟩
  intro cfg inp st hh
  unfold handleStep
  rw [hh]
  simp only [hpanik]

/-- Witness for C10 with the 12-character zero-free name "helloworldab". -/
theorem claim_C10_no_terminator_panics_witness :
    extractMsgName
      (sliceHeader (buildHeader 7 [104, 101, 108, 108, 111, 119, 111, 114, 108, 100, 97, 98]
        1 0 0 ++ fromUint32 0)).msgName = GoResult.panik :=
  (claim_C10_no_terminator_panics 7 0 0 0 1
    [104, 101, 108, 108, 111, 119, 111, 114, 108, 100, 97, 98]
    (by decide) (by decide)).2.2.1

/-- C4: header validation checks the magic constant, then the chain id,
then the version, each against the node's configuration; any mismatch
makes `verifyHeader` false, in which case the stream handler performs
the `Bye` cleanup, ends the loop, and never reads the payload. -/
theorem claim_C4_header_validation (cfg : Config) (m ch ve : List Byte) :
    (verifyHeader cfg m ch ve
      = (decide (MagicNumber = m)
          && (decide (cfg.chainID = uint32 ch) && decide ([cfg.version] = ve))))
    ∧ (MagicNumber ≠ m → verifyHeader cfg m ch ve = false)
    ∧ (cfg.chainID ≠ uint32 ch → verifyHeader cfg m ch ve = false)
    ∧ ([cfg.version] ≠ ve → verifyHeader cfg m ch ve = false)
    ∧ (verifyHeader cfg m ch ve = true
        ↔ (MagicNumber = m ∧ cfg.chainID = uint32 ch ∧ [cfg.version] = ve))
    ∧ (∀ (inp : HandlerInput) (st : NodeState) (hdr nm : List Byte),
        inp.headerBytes = some hdr →
        extractMsgName (sliceHeader hdr).msgName = GoResult.ok nm →
        verifyHeader cfg (sliceHeader hdr).magicNumber (sliceHeader hdr).chainID
          (sliceHeader hdr).version = false →
        handleStep cfg inp st
          = GoResult.ok ⟨byeApply st inp.pid [inp.addrStr], true, false, 0, false⟩) := by
  have hstruct : verifyHeader cfg m ch ve
      = (decide (MagicNumber = m)
          && (decide (cfg.chainID = uint32 ch) && decide ([cfg.version] = ve))) := by
    unfold verifyHeader
    by_cases h1 : MagicNumber = m
    · by_cases h2 : cfg.chainID = uint32 ch
      · by_cases h3 : [cfg.version] = ve <;> simp [h1, h2, h3]
      · simp [h1, h2]
    · simp [h1]
  refine ⟨hstruct, ?_, ?_, ?_, ?_, ?_⟩
  · intro h; rw [hstruct]; simp [h]
  · intro h; rw [hstruct]; simp [h]
  · intro h; rw [hstruct]; simp [h]
  · rw [hstruct]; simp
  · intro inp st hdr nm hh hex hv
    unfold handleStep
    rw [hh]
    simp only [hex, hv, Bool.false_eq_true, not_false_eq_true, if_pos]

/-- Witness for C4: a header whose chain id mismatches the configuration
is rejected and `Bye` runs without a payload read. -/
theorem claim_C4_header_validation_witness :
    verifyHeader ⟨7, 1, 20, "self"⟩ MagicNumber (fromUint32 9) [1] = false
    ∧ handleStep ⟨7, 1, 20, "self"⟩
        ⟨"p1", "a1", some ((buildData 9 1 [] okBytes).take 36), some [], true, true,
          true, true, [], fun _ => ⟨false, true⟩⟩
        ⟨[], [], [], []⟩
      = GoResult.ok ⟨byeApply ⟨[], [], [], []⟩ "p1" ["a1"], true, false, 0, false⟩ := by
  have h := claim_C4_header_validation ⟨7, 1, 20, "self"⟩ MagicNumber (fromUint32 9) [1]
  refine ⟨h.2.2.1 (by decide), ?_⟩
  exact h.2.2.2.2.2 _ _ _ okBytes rfl (by decide) (by decide)

/-- Witness for C2 at chain id 7, version 1, name "ok", payload [1, 2, 3]. -/
theorem claim_C2_frame_roundtrip_witness :
    uint32 (sliceHeader ((buildData 7 1 [1, 2, 3] okBytes).take 36)).chainID = 7
    ∧ (sliceHeader ((buildData 7 1 [1, 2, 3] okBytes).take 36)).version = [1]
    ∧ extractMsgName (sliceHeader ((buildData 7 1 [1, 2, 3] okBytes).take 36)).msgName
        = GoResult.ok okBytes
    ∧ ((buildData 7 1 [1, 2, 3] okBytes).drop 36).take
        (uint32 (sliceHeader ((buildData 7 1 [1, 2, 3] okBytes).take 36)).dataLength)
        = [1, 2, 3]
    ∧ crc32 (((buildData 7 1 [1, 2, 3] okBytes).drop 36).take
        (uint32 (sliceHeader ((buildData 7 1 [1, 2, 3] okBytes).take 36)).dataLength))
      = uint32 (sliceHeader ((buildData 7 1 [1, 2, 3] okBytes).take 36)).dataChecksum :=
  claim_C2_frame_roundtrip 7 1 okBytes [1, 2, 3] (by norm_num) (by decide)
    (by decide) (by norm_num) (by decide)

/-- C8: on a payload CRC-32 mismatch the receive loop ends with the state
(route table, peerstore, connection-status map) completely unchanged —
no `Bye` cleanup — whereas a header read failure, a header validation
failure, and a payload read failure all end the loop through the `Bye`
cleanup. -/
theorem claim_C8_checksum_error_no_bye (cfg : Config) (inp : HandlerInput)
    (st : NodeState) (hdr data nm : List Byte)
    (hh : inp.headerBytes = some hdr) (hp : inp.payloadBytes = some data)
    (hex : extractMsgName (sliceHeader hdr).msgName = GoResult.ok nm)
    (hv : verifyHeader cfg (sliceHeader hdr).magicNumber (sliceHeader hdr).chainID
        (sliceHeader hdr).version = true)
    (hcrc : crc32 data ≠ uint32 (sliceHeader hdr).dataChecksum) :
    handleStep cfg inp st = GoResult.ok ⟨st, true, true, 0, false⟩
    ∧ (∀ (inp2 : HandlerInput) (st2 : NodeState), inp2.headerBytes = none →
        handleStep cfg inp2 st2
          = GoResult.ok ⟨byeApply st2 inp2.pid [inp2.addrStr], true, false, 0, false⟩)
    ∧ (∀ (inp2 : HandlerInput) (st2 : NodeState) (hdr2 nm2 : List Byte),
        inp2.headerBytes = some hdr2 →
        extractMsgName (sliceHeader hdr2).msgName = GoResult.ok nm2 →
        verifyHeader cfg (sliceHeader hdr2).magicNumber (sliceHeader hdr2).chainID
          (sliceHeader hdr2).version = false →
        handleStep cfg inp2 st2
          = GoResult.ok ⟨byeApply st2 inp2.pid [inp2.addrStr], true, false, 0, false⟩)
    ∧ (∀ (inp2 : HandlerInput) (st2 : NodeState) (hdr2 nm2 : List Byte),
        inp2.headerBytes = some hdr2 → inp2.payloadBytes = none →
        extractMsgName (sliceHeader hdr2).msgName = GoResult.ok nm2 →
        verifyHeader cfg (sliceHeader hdr2).magicNumber (sliceHeader hdr2).chainID
          (sliceHeader hdr2).version = true →
        handleStep cfg inp2 st2
          = GoResult.ok ⟨byeApply st2 inp2.pid [inp2.addrStr], true, true, 0, false⟩) := by
  refine ⟨?_, ?_, ?_, ?_⟩
  · unfold handleStep
    rw [hh]
    simp only [hex, hv, hp]
    rw [if_neg (by simp), if_pos hcrc]
  · intro inp2 st2 hh2
    unfold handleStep
    rw [hh2]
  · intro inp2 st2 hdr2 nm2 hh2 hex2 hv2
    unfold handleStep
    rw [hh2]
    simp only [hex2, hv2, Bool.false_eq_true, not_false_eq_true, if_pos]
  · intro inp2 st2 hdr2 nm2 hh2 hp2 hex2 hv2
    unfold handleStep
    rw [hh2]
    simp only [hex2, hv2, hp2]
    rw [if_neg (by simp)]

/-- Witness for C8: a well-formed frame whose payload was corrupted after
building (checksum mismatch) ends the loop and leaves the state intact. -/
theorem claim_C8_checksum_error_no_bye_witness :
    handleStep ⟨7, 1, 20, "self"⟩
      ⟨"p1", "a1", some ((buildData 7 1 [1, 2, 3] okBytes).take 36), some [1, 2, 4],
        true, true, true, true, [], fun _ => ⟨false, true⟩⟩
      ⟨["p9"], [("p9", [("a9", TTL.permanent)])], [("a9", true)], [("a9", ConnStatus.sOK)]⟩
      = GoResult.ok ⟨⟨["p9"], [("p9", [("a9", TTL.permanent)])], [("a9", true)],
          [("a9", ConnStatus.sOK)]⟩, true, true, 0, false⟩ :=
  (claim_C8_checksum_error_no_bye ⟨7, 1, 20, "self"⟩
    ⟨"p1", "a1", some ((buildData 7 1 [1, 2, 3] okBytes).take 36), some [1, 2, 4],
      true, true, true, true, [], fun _ => ⟨false, true⟩⟩
    ⟨["p9"], [("p9", [("a9", TTL.permanent)])], [("a9", true)], [("a9", ConnStatus.sOK)]⟩
    ((buildData 7 1 [1, 2, 3] okBytes).take 36) [1, 2, 4] okBytes
    rfl rfl (by decide) (by decide) (by decide)).1

/-- C7: over a route table listing `N` distinct peer identities that
include the local identity, `Broadcast` submits exactly `N - 1` NEWBLOCK
sends, one per non-self identity, and zero sends when the table holds
only the local identity. -/
theorem claim_C7_broadcast_nonself (cfg : Config) (peers : List String)
    (hnd : peers.Nodup) (hself : cfg.selfId ∈ peers) :
    (broadcastSends cfg true peers).length = peers.length - 1
    ∧ (∀ p, p ∈ broadcastSends cfg true peers ↔ (p ∈ peers ∧ p ≠ cfg.selfId))
    ∧ broadcastSends cfg true [cfg.selfId] = [] := by
  refine ⟨?_, ?_, ?_⟩
  · show (peers.filter (fun nodeID => ¬ (cfg.selfId = nodeID))).length = peers.length - 1
    induction peers with
    | nil => cases hself
    | cons a t ih =>
      rcases List.mem_cons.mp hself with h | h
      · subst h
        have hnotin : cfg.selfId ∉ t := (List.nodup_cons.mp hnd).1
        have hft : t.filter (fun nodeID => ¬ (cfg.selfId = nodeID)) = t := by
          apply List.filter_eq_self.mpr
          intro b hb
          simp only [decide_eq_true_eq]
          intro hcon
          exact hnotin (hcon ▸ hb)
        simp only [List.filter_cons]
        rw [if_neg (by simp), hft]
        simp
      · have hnd' : t.Nodup := (List.nodup_cons.mp hnd).2
        have hne : ¬ (cfg.selfId = a) := fun hcon => (List.nodup_cons.mp hnd).1 (hcon ▸ h)
        simp only [List.filter_cons]
        rw [if_pos (by simpa using hne)]
        simp only [List.length_cons, ih hnd' h]
        have hlen : 1 ≤ t.length := List.length_pos.mpr (List.ne_nil_of_mem h)
        omega
  · intro p
    show p ∈ peers.filter (fun nodeID => ¬ (cfg.selfId = nodeID)) ↔ _
    rw [List.mem_filter]
    constructor
    · rintro ⟨hmem, hdec⟩
      exact ⟨hmem, fun hcon => by simp [hcon] at hdec⟩
    · rintro ⟨hmem, hne⟩
      exact ⟨hmem, by simpa using fun hcon => hne hcon.symm⟩
  · simp [broadcastSends]

/-- C1 (divergence witness): a NEWBLOCK frame whose payload fails to
decode makes the handler send twice on the shared `quitCh` (once for
`proto.Unmarshal`, once for `FromProto`), keep its own loop running, and
still dispatch the zero-valued block; a pending quit signal then
terminates whatever other connection's receive loop selects it next —
here connection 2's, whatever frame it was about to process. -/
theorem claim_C1_newblock_decode_failure_global :
    handleStep ⟨7, 1, 20, "self"⟩
      ⟨"p1", "a1", some ((buildData 7 1 [5] newblockBytes).take 36),
        some ((buildData 7 1 [5] newblockBytes).drop 36), true, false, false, true, [],
        fun _ => ⟨false, true⟩⟩ ⟨[], [], [], []⟩
      = GoResult.ok ⟨⟨[], [], [], []⟩, false, true, 2, true⟩
    ∧ sysStepConn1 ⟨7, 1, 20, "self"⟩
        ⟨"p1", "a1", some ((buildData 7 1 [5] newblockBytes).take 36),
          some ((buildData 7 1 [5] newblockBytes).drop 36), true, false, false, true, [],
          fun _ => ⟨false, true⟩⟩ ⟨0, true, true, ⟨[], [], [], []⟩⟩
      = ⟨2, true, true, ⟨[], [], [], []⟩⟩
    ∧ ∀ inp2 : HandlerInput,
        (sysStepConn2 ⟨7, 1, 20, "self"⟩ inp2
          ⟨2, true, true, ⟨[], [], [], []⟩⟩).conn2Active = false := by
  refine ⟨by decide, by decide, fun inp2 => rfl⟩

/-- C3 (counterexample): with a stream, a known address and a successful
write, `Hello` returns success with the node state completely untouched:
no OK reply has been processed, the address's connection status is not
Connected, and no send-handle is stored.  Moreover a write failure
returns an error without clearing the address-book entry. -/
theorem claim_C3_hello_counterexample :
    helloStep ⟨false, true⟩ ⟨[], [("p", [("a", TTL.temp)])], [], []⟩ "p"
      = (⟨[], [("p", [("a", TTL.temp)])], [], []⟩, Except.ok ())
    ∧ alGet (⟨[], [("p", [("a", TTL.temp)])], [], []⟩ : NodeState).conn "a" ConnStatus.sNC
        = ConnStatus.sNC
    ∧ alGet (⟨[], [("p", [("a", TTL.temp)])], [], []⟩ : NodeState).streams "a" false = false
    ∧ helloStep ⟨false, false⟩ ⟨[], [("p", [("a", TTL.temp)])], [], []⟩ "p"
      = (⟨[], [("p", [("a", TTL.temp)])], [], []⟩, Except.error HelloErr.writeErr) :=
  ⟨rfl, rfl, rfl, rfl⟩

/-- C3 (amended): `Hello` returns an error on stream-open failure — and
only then clears the address-book entry and removes the peer from the
route table — on an empty address list, and on HELLO write failure
(both leaving the state untouched); otherwise it returns success
immediately after writing the HELLO frame, before any OK reply and
without registering a session, leaving further handling to the
asynchronously spawned stream handler. -/
theorem claim_C3_hello_amended (env : HelloEnv) (st : NodeState) (pid : String) :
    (env.streamErr = true →
      helloStep env st pid
        = ({ setAddrsZero st pid (peerInfoAddrs st pid) with
              routeTable :=
                (setAddrsZero st pid (peerInfoAddrs st pid)).routeTable.erase pid },
           Except.error HelloErr.streamErr))
    ∧ (env.streamErr = false → peerInfoAddrs st pid = [] →
        helloStep env st pid = (st, Except.error HelloErr.wrongAddrs))
    ∧ (env.streamErr = false → peerInfoAddrs st pid ≠ [] → env.writeOk = false →
        helloStep env st pid = (st, Except.error HelloErr.writeErr))
    ∧ (env.streamErr = false → peerInfoAddrs st pid ≠ [] → env.writeOk = true →
        helloStep env st pid = (st, Except.ok ())) :=
  ⟨helloStep_streamErr env st pid,
   helloStep_noAddrs env st pid,
   helloStep_writeErr env st pid,
   helloStep_ok env st pid⟩

/-- Witness for the amended C3: the success case at a concrete state. -/
theorem claim_C3_hello_amended_witness :
    helloStep ⟨false, true⟩ ⟨[], [("p", [("a", TTL.temp)])], [], []⟩ "p"
      = (⟨[], [("p", [("a", TTL.temp)])], [], []⟩, Except.ok ()) :=
  (claim_C3_hello_amended ⟨false, true⟩ ⟨[], [("p", [("a", TTL.temp)])], [], []⟩ "p").2.2.2
    rfl (by decide) rfl

/-- C5 (counterexample): a SYNCROUTEREPLY listing the local node's own
identity as a candidate, whose verification `Hello` succeeds, puts the
local identity into the route table — the core has no self-check on any
`Update` path. -/
theorem claim_C5_self_counterexample :
    "self" ∈ (runOps ⟨7, 1, 20, "self"⟩
      [CoreOp.handle ⟨"p1", "a1", some ((buildData 7 1 [] resyncrouteBytes).take 36),
        some [], true, true, true, true, [⟨"self", ["a"]⟩], fun _ => ⟨false, true⟩⟩]
      ⟨[], [], [], []⟩).routeTable := by decide

/-- C5 (amended): for every sequence of core operations in which no
handler iteration's remote peer identity and no decoded reply candidate
equals the local identity, the route table never contains the local
node's own identity. -/
theorem claim_C5_no_self_amended (cfg : Config) (ops : List CoreOp) (st : NodeState)
    (h0 : cfg.selfId ∉ st.routeTable)
    (hops : ∀ op ∈ ops, opSelfFree cfg.selfId op) :
    cfg.selfId ∉ (runOps cfg ops st).routeTable := by
  induction ops generalizing st with
  | nil => exact h0
  | cons op t ih =>
    show cfg.selfId ∉ (List.foldl (runOp cfg) (runOp cfg st op) t).routeTable
    exact ih (runOp cfg st op)
      (runOp_rt_preserve cfg st op h0 (hops op (List.mem_cons_self op t)))
      (fun o ho => hops o (List.mem_cons_of_mem op ho))

/-- Witness for the amended C5: a reply candidate distinct from self is
verified and added without ever inserting self. -/
theorem claim_C5_no_self_amended_witness :
    "self" ∉ (runOps ⟨7, 1, 20, "self"⟩
      [CoreOp.handle ⟨"p1", "a1", some ((buildData 7 1 [] resyncrouteBytes).take 36),
        some [], true, true, true, true, [⟨"q", ["b"]⟩], fun _ => ⟨false, true⟩⟩]
      ⟨[], [], [], []⟩).routeTable :=
  claim_C5_no_self_amended ⟨7, 1, 20, "self"⟩
    [CoreOp.handle ⟨"p1", "a1", some ((buildData 7 1 [] resyncrouteBytes).take 36),
      some [], true, true, true, true, [⟨"q", ["b"]⟩], fun _ => ⟨false, true⟩⟩]
    ⟨[], [], [], []⟩ (by decide)
    (fun op hop => by
      rw [List.mem_singleton.mp hop]
      exact ⟨by decide, by decide⟩)

/-- C6 (counterexample): a fresh candidate whose verification handshake
fails at stream open is left with an empty (cleared) address-book entry,
not with its short-lived temporary entry — `Hello`'s stream-error branch
sets the entry's expiry to zero. -/
theorem claim_C6_reply_counterexample :
    alGet (processReply (fun _ => ⟨true, true⟩) ⟨[], [], [], []⟩
      [⟨"p", ["a"]⟩]).peerAddrs "p" [] = []
    ∧ alGet (processReply (fun _ => ⟨true, true⟩) ⟨[], [], [], []⟩
        [⟨"p", ["a"]⟩]).peerAddrs "p" [] ≠ [("a", TTL.temp)]
    ∧ "p" ∉ (processReply (fun _ => ⟨true, true⟩) ⟨[], [], [], []⟩
        [⟨"p", ["a"]⟩]).routeTable := by
  refine ⟨rfl, by decide, by decide⟩

/-- C6 (amended): candidates already routed or without addresses are
skipped (never re-verified or re-added); a remaining candidate is added
to the route table with its first address promoted to a permanent entry
iff its verification `Hello` succeeds (stream opened and HELLO written —
no OK reply involved); on a write failure it keeps only its temporary
address entry; on a stream-open failure its address-book entry is
cleared entirely rather than left as the temporary entry. -/
theorem claim_C6_reply_processing_amended (env : String → HelloEnv) (st : NodeState)
    (c : Candidate) :
    (c.id ∈ st.routeTable ∨ c.addrs = [] → processCandidate env st c = st)
    ∧ (¬ (c.id ∈ st.routeTable ∨ c.addrs = []) → (env c.id).streamErr = false →
        (env c.id).writeOk = true →
        processCandidate env st c
          = ({ addAddr (addAddr st c.id (c.addrs.headD "") TTL.temp) c.id
                (c.addrs.headD "") TTL.permanent with
              routeTable :=
                rtUpdate (addAddr (addAddr st c.id (c.addrs.headD "") TTL.temp) c.id
                  (c.addrs.headD "") TTL.permanent).routeTable c.id }))
    ∧ (¬ (c.id ∈ st.routeTable ∨ c.addrs = []) → (env c.id).streamErr = false →
        (env c.id).writeOk = false →
        processCandidate env st c = addAddr st c.id (c.addrs.headD "") TTL.temp)
    ∧ (¬ (c.id ∈ st.routeTable ∨ c.addrs = []) → (env c.id).streamErr = true →
        processCandidate env st c
          = ({ setAddrsZero (addAddr st c.id (c.addrs.headD "") TTL.temp) c.id
                (peerInfoAddrs (addAddr st c.id (c.addrs.headD "") TTL.temp) c.id) with
              routeTable :=
                (setAddrsZero (addAddr st c.id (c.addrs.headD "") TTL.temp) c.id
                  (peerInfoAddrs (addAddr st c.id (c.addrs.headD "") TTL.temp)
                    c.id)).routeTable.erase c.id })) :=
  ⟨processCandidate_skip env st c,
   fun h hs hw => processCandidate_ok env st c h hs hw,
   fun h hs hw => processCandidate_writeErr env st c h hs hw,
   fun h hs => processCandidate_streamErr env st c h hs⟩

/-- Witness for the amended C6: an already-routed candidate is skipped. -/
theorem claim_C6_reply_processing_amended_witness :
    processCandidate (fun _ => ⟨false, false⟩) ⟨["p"], [], [], []⟩ ⟨"p", ["a"]⟩
      = ⟨["p"], [], [], []⟩ :=
  (claim_C6_reply_processing_amended (fun _ => ⟨false, false⟩) ⟨["p"], [], [], []⟩
    ⟨"p", ["a"]⟩).1 (Or.inl (by decide))

/-- Witness for C7: three peers including self give two sends; a
self-only table gives none. -/
theorem claim_C7_broadcast_nonself_witness :
    (broadcastSends ⟨7, 1, 20, "self"⟩ true ["p1", "self", "p2"]).length = 3 - 1
    ∧ broadcastSends ⟨7, 1, 20, "self"⟩ true ["self"] = [] := by
  have h := claim_C7_broadcast_nonself ⟨7, 1, 20, "self"⟩ ["p1", "self", "p2"]
    (by decide) (by decide)
  exact ⟨h.1, h.2.2⟩

end Nebulas
